import Mathlib

/-!
Verification of the BIP32/SLIP-10 ed25519 hierarchical-deterministic key
derivation engine (`src/Impl/ed25519.ts` of `nem2-hd-wallets`).

Shallow embedding conventions:
* JS `Buffer` values are modelled as `List Nat` of byte values; base58 text
  (the output of the external `bs58check` library) is likewise modelled as a
  list of character codes.
* Exceptions (`throw new TypeError(...)` and friends) are modelled with
  `Except HdError`, one constructor per distinct failure condition.
* The external collaborators from `nem2-library` (HMAC-SHA512, ed25519 public
  key extraction, the SHA3+RIPEMD160 `hash160`, the in-place curve point add
  `nacl_catapult.add`) are bundled in a `Crypto` record of pure functions;
  every theorem is universally quantified over it.
* The in-place mutation performed by `CKDPub` on the parent's cached public
  key buffer is made explicit: `CKDPub` returns the pair
  (child node, parent node after the call).
-/

/-- Byte buffers (JS `Buffer`) are lists of byte values. -/
abbrev Bytes := List Nat

/-- Modelled from the spec: the `Network` class of `src/index.ts` is not part
of the provided source; §3 of the spec describes it as a "version-prefix
pair — two 32-bit values identifying which prefix marks an extended-private
vs extended-public serialization".  The field carrying the extended-private
version prefix is called `privateKeyPfx` here (source name
`privateKeyPrefix`) and similarly for `publicKeyPfx`. -/
structure Network where
  privateKeyPfx : Nat
  publicKeyPfx : Nat
deriving DecidableEq

/-- Modelled from the spec: the concrete `Network.CATAPULT` constant lives in
the missing `src/index.ts`; the spec only requires two distinct 32-bit
version values, so the standard BIP32 pair is used. -/
def Network.CATAPULT : Network := ⟨0x0488ADE4, 0x0488B21E⟩

/-- External cryptographic collaborators (spec §6): HMAC-SHA512 from
`create-hmac`, `CatapultECC.extractPublicKey`, `Cryptography.hash160`
(SHA3-256 then RIPEMD160) and the in-place curve addition
`nacl_catapult.add`, whose effect on the mutated buffer is modelled as the
returned value `pointAdd point scalar`. -/
structure Crypto where
  hmacSha512 : Bytes → Bytes → Bytes
  extractPublicKey : Bytes → Bytes
  hash160 : Bytes → Bytes
  pointAdd : Bytes → Bytes → Bytes

/-- The distinct failure conditions (thrown `TypeError`s / `Error`s) of the
engine, named after the error kinds of spec §7.  `rangeError` stands for the
`RangeError` thrown by `Buffer.writeUInt32BE`/`writeUInt8` on out-of-range
values, `checksumError` for a failed `bs58check.decode`, and `missingKey`
for the failure of the `publicKey` getter when the node has neither key. -/
inductive HdError where
  | missingPrivateKey
  | indexOverflow
  | invalidPath
  | expectedMasterNode
  | invalidSeedLength
  | invalidLength (got : Nat)
  | invalidVersion
  | invalidMasterNode
  | invalidPrivateKeyMarker
  | checksumError
  | rangeError
  | missingKey
deriving DecidableEq

/-- The node data model (`NodeEd25519` constructor, ed25519.ts:153-163).
`__D` is the optional private key, `__Q` the optional (lazily memoized)
public key; the remaining fields mirror the constructor parameters with
their source names. -/
structure NodeEd25519 where
  __D : Option Bytes
  __Q : Option Bytes
  chainCode : Bytes
  network : Network
  __DEPTH : Nat
  __INDEX : Nat
  __PARENT_FINGERPRINT : Nat
deriving DecidableEq

/-- Hardened key derivation marker bit (ed25519.ts:140). -/
def NodeEd25519.HIGHEST_BIT : Nat := 0x80000000

/-- Getter `depth` (ed25519.ts:282-284). -/
def NodeEd25519.depth (n : NodeEd25519) : Nat := n.__DEPTH

/-- Getter `index` (ed25519.ts:292-294). -/
def NodeEd25519.index (n : NodeEd25519) : Nat := n.__INDEX

/-- Getter `parentFingerprint` (ed25519.ts:302-304). -/
def NodeEd25519.parentFingerprint (n : NodeEd25519) : Nat := n.__PARENT_FINGERPRINT

/-- `isNeutered()` (ed25519.ts:371-373): the node is neutered iff the
private key field is `undefined`. -/
def NodeEd25519.isNeutered (n : NodeEd25519) : Bool := n.__D.isNone

/-- Getter `privateKey` (ed25519.ts:327-333): throws `Missing private key.`
when `__D` is `undefined`. -/
def privateKeyE (n : NodeEd25519) : Except HdError Bytes :=
  match n.__D with
  | some d => .ok d
  | none => .error .missingPrivateKey

/-- Getter `publicKey` (ed25519.ts:312-319): when `__Q` is undefined it is
derived from the private key via `CatapultECC.extractPublicKey` and cached
on the node; the returned pair is (value, node after the call).  A node with
neither key makes `extractPublicKey(undefined)` throw, modelled as
`missingKey`. -/
def publicKeyE (C : Crypto) (n : NodeEd25519) : Except HdError (Bytes × NodeEd25519) :=
  match n.__Q with
  | some q => .ok (q, n)
  | none =>
    match n.__D with
    | some d =>
      let q := C.extractPublicKey d
      .ok (q, { n with __Q := some q })
    | none => .error .missingKey

/-- Getter `identifier` (ed25519.ts:345-347): `hash160` of the public key. -/
def identifierE (C : Crypto) (n : NodeEd25519) : Except HdError (Bytes × NodeEd25519) :=
  (publicKeyE C n).map fun p => (C.hash160 p.1, p.2)

/-- Getter `fingerprint` (ed25519.ts:358-360): first 4 bytes of the
identifier. -/
def fingerprintE (C : Crypto) (n : NodeEd25519) : Except HdError (Bytes × NodeEd25519) :=
  (identifierE C n).map fun p => (p.1.take 4, p.2)

/-- Big-endian 4-byte serialization of a 32-bit value (the byte content
written by `Buffer.writeUInt32BE`). -/
def ser32 (x : Nat) : Bytes :=
  [x / 2 ^ 24 % 256, x / 2 ^ 16 % 256, x / 2 ^ 8 % 256, x % 256]

/-- `Buffer.allocUnsafe(4)` followed by `writeUInt32BE(index, 0)`
(ed25519.ts:51-52, 88-89): throws `RangeError` when the value does not fit
in 32 bits. -/
def serUInt32BE (x : Nat) : Except HdError Bytes :=
  if x < 2 ^ 32 then .ok (ser32 x) else .error .rangeError

/-- `buffer.readUInt32BE(off)`: big-endian read of 4 bytes. -/
def readUInt32BE (b : Bytes) (off : Nat) : Nat :=
  b.getD off 0 * 2 ^ 24 + b.getD (off + 1) 0 * 2 ^ 16 +
    b.getD (off + 2) 0 * 2 ^ 8 + b.getD (off + 3) 0

/-- `buffer.slice(i, j)`. -/
def sliceL (b : Bytes) (i j : Nat) : Bytes := (b.drop i).take (j - i)

/-- `buffer.writeUInt32BE(x, off)` on a buffer: replaces 4 bytes at `off`;
throws `RangeError` for values outside 32 bits or writes out of bounds. -/
def writeUInt32BEAt (buf : Bytes) (off x : Nat) : Except HdError Bytes :=
  if x < 2 ^ 32 ∧ off + 4 ≤ buf.length then
    .ok (buf.take off ++ ser32 x ++ buf.drop (off + 4))
  else .error .rangeError

/-- `buffer.writeUInt8(x, off)`. -/
def writeUInt8At (buf : Bytes) (off x : Nat) : Except HdError Bytes :=
  if x < 256 ∧ off + 1 ≤ buf.length then
    .ok (buf.take off ++ [x] ++ buf.drop (off + 1))
  else .error .rangeError

/-- `src.copy(buf, off)` (`Buffer.copy`): copies `src` into `buf` starting
at `off`, truncated at the end of `buf`; the buffer keeps its length. -/
def copyAt (buf : Bytes) (off : Nat) (src : Bytes) : Bytes :=
  let copied := src.take (buf.length - off)
  buf.take off ++ copied ++ buf.drop (off + copied.length)

/-- `CKDPriv` (ed25519.ts:47-65): HMAC-SHA512 over
`0x00 ‖ parent.privateKey ‖ ser32(index)` keyed by the parent chain code;
the child is built by `new NodeEd25519(IL, undefined, IR)`, leaving the
constructor defaults `network = CATAPULT`, `depth = 0`, `index = 0`,
`parentFingerprint = 0`. -/
def CKDPriv (C : Crypto) (parent : NodeEd25519) (index : Nat) :
    Except HdError NodeEd25519 :=
  match serUInt32BE index with
  | .error e => .error e
  | .ok indexBuffer =>
    match privateKeyE parent with
    | .error e => .error e
    | .ok d =>
      let data := [0] ++ d ++ indexBuffer
      let I := C.hmacSha512 parent.chainCode data
      .ok ⟨some (I.take 32), none, I.drop 32, Network.CATAPULT, 0, 0, 0⟩

/-- The `Ki === null` test of ed25519.ts:105.  `Ki` is a JS `Buffer` bound
with `const`, so the strict-equality comparison with `null` is always
false. -/
def bufferIsNull (_b : Bytes) : Bool := false

/-- `CKDPub` (ed25519.ts:84-111), fuelled form.  The fuel counts the
remaining candidate indices before `writeUInt32BE` overflows at `2^32`
(each retry increments the index by one).  `Ki` aliases the parent's cached
public key buffer, which `nacl_catapult.add` mutates in place: the second
component of the result is the parent node after the call. -/
def CKDPubFuel (C : Crypto) :
    Nat → NodeEd25519 → Nat → Except HdError (NodeEd25519 × NodeEd25519)
  | 0, _, _ => .error .rangeError
  | fuel + 1, parent, index =>
    match serUInt32BE index with
    | .error e => .error e
    | .ok indexBuffer =>
      match publicKeyE C parent with
      | .error e => .error e
      | .ok (pub, parent1) =>
        let data := pub ++ indexBuffer
        let I := C.hmacSha512 parent1.chainCode data
        let IL := I.take 32
        let IR := I.drop 32
        let Ki := C.pointAdd pub IL
        let parent2 := { parent1 with __Q := some Ki }
        if bufferIsNull Ki then CKDPubFuel C fuel parent2 (index + 1)
        else .ok (⟨none, some Ki, IR, Network.CATAPULT, 0, 0, 0⟩, parent2)

/-- `CKDPub` entry point: the recursion of the source is bounded by the
`RangeError` raised once the retried index reaches `2^32`, so `2^32 - index`
fuel is exact. -/
def CKDPub (C : Crypto) (parent : NodeEd25519) (index : Nat) :
    Except HdError (NodeEd25519 × NodeEd25519) :=
  CKDPubFuel C (2 ^ 32 - index) parent index

/-- Straight-line reading of `CKDPub`: the body of ed25519.ts:84-111 with
the (dead) point-at-infinity retry branch removed.  Comparison definition
for the no-retry claim. -/
def CKDPubOnce (C : Crypto) (parent : NodeEd25519) (index : Nat) :
    Except HdError (NodeEd25519 × NodeEd25519) :=
  match serUInt32BE index with
  | .error e => .error e
  | .ok indexBuffer =>
    match publicKeyE C parent with
    | .error e => .error e
    | .ok (pub, parent1) =>
      let data := pub ++ indexBuffer
      let I := C.hmacSha512 parent1.chainCode data
      let IL := I.take 32
      let IR := I.drop 32
      let Ki := C.pointAdd pub IL
      let parent2 := { parent1 with __Q := some Ki }
      .ok (⟨none, some Ki, IR, Network.CATAPULT, 0, 0, 0⟩, parent2)

/-- `derive` (ed25519.ts:542-566): hardened derivation on a neutered node
fails; otherwise dispatch on the presence of the private key.  Only the
derived child is returned (the in-place effect of `CKDPub` on the parent is
exposed by `CKDPub` itself). -/
def derive (C : Crypto) (n : NodeEd25519) (index : Nat) :
    Except HdError NodeEd25519 :=
  if NodeEd25519.HIGHEST_BIT ≤ index ∧ n.isNeutered = true then
    .error .missingPrivateKey
  else if n.isNeutered = false then CKDPriv C n index
  else (CKDPub C n index).map Prod.fst

/-- `deriveHardened` (ed25519.ts:513-524). -/
def deriveHardened (C : Crypto) (n : NodeEd25519) (index : Nat) :
    Except HdError NodeEd25519 :=
  if 2 ^ 31 - 1 < index then .error .indexOverflow
  else derive C n (index + NodeEd25519.HIGHEST_BIT)

/-- `fromSeed` (ed25519.ts:174-190): the HMAC-SHA512 key is the UTF-8 bytes
of the string `Catapult seed`. -/
def catapultSeedKey : Bytes :=
  [67, 97, 116, 97, 112, 117, 108, 116, 32, 115, 101, 101, 100]

/-- `fromSeed` (ed25519.ts:174-190). -/
def fromSeed (C : Crypto) (seed : Bytes) (network : Network) :
    Except HdError NodeEd25519 :=
  if seed.length < 16 then .error .invalidSeedLength
  else if 64 < seed.length then .error .invalidSeedLength
  else
    let I := C.hmacSha512 catapultSeedKey seed
    .ok ⟨some (I.take 32), none, I.drop 32, network, 0, 0, 0⟩

/-- `neutered` (ed25519.ts:381-391): a new node with the private key
stripped and the (possibly lazily computed) public key and all metadata
copied. -/
def neutered (C : Crypto) (n : NodeEd25519) : Except HdError NodeEd25519 :=
  match publicKeyE C n with
  | .error e => .error e
  | .ok (q, _) =>
    .ok ⟨none, some q, n.chainCode, n.network, n.__DEPTH, n.__INDEX,
      n.__PARENT_FINGERPRINT⟩

/-- The apostrophe character marking hardened path segments. -/
def apos : Char := Char.ofNat 39

/-- Decimal digit test used by the path grammar. -/
def isDigitCh (c : Char) : Bool := decide ('0' ≤ c) && decide (c ≤ '9')

/-- JS `path.split('/')` on the character list of the path. -/
def splitSlash : List Char → List (List Char)
  | [] => [[]]
  | c :: rest =>
    if c = '/' then [] :: splitSlash rest
    else
      match splitSlash rest with
      | [] => [[c]]
      | s :: ss => (c :: s) :: ss

/-- One path segment of the grammar: decimal digits optionally followed by a
single apostrophe. -/
def segValid (s : List Char) : Bool :=
  match s.getLast? with
  | none => false
  | some c =>
    if c = apos then
      let core := s.dropLast
      !core.isEmpty && core.all isDigitCh
    else s.all isDigitCh

/-- `isValidPath` (ed25519.ts:620-624): match of the regular expression
`(m SLASH)? (digits APOS? SLASH)* digits APOS?` anchored at both ends,
expressed on the slash-split segments. -/
def isValidPath (path : String) : Bool :=
  match splitSlash path.data with
  | [] => false
  | first :: rest =>
    if first = ['m'] then !rest.isEmpty && rest.all segValid
    else (first :: rest).all segValid

/-- JS `parseInt(s, 10)` restricted to the digit strings produced by a
validated path. -/
def parseDigits (s : List Char) : Nat :=
  s.foldl (fun a c => a * 10 + (c.toNat - 48)) 0

/-- `derivePath` (ed25519.ts:466-504): validate the path, reject an `m/`
path on a node with a nonzero parent fingerprint, strip the `m` segment and
fold the remaining segments with `deriveHardened` (trailing apostrophe) or
`derive`. -/
def derivePath (C : Crypto) (n : NodeEd25519) (path : String) :
    Except HdError NodeEd25519 :=
  if isValidPath path = false then .error .invalidPath
  else
    let splitPath := splitSlash path.data
    if splitPath.head? = some ['m'] ∧ n.__PARENT_FINGERPRINT ≠ 0 then
      .error .expectedMasterNode
    else
      let segs := if splitPath.head? = some ['m'] then splitPath.drop 1 else splitPath
      segs.foldlM
        (fun prevHd indexStr =>
          if indexStr.getLast? = some apos then
            deriveHardened C prevHd (parseDigits indexStr.dropLast)
          else derive C prevHd (parseDigits indexStr))
        n

/-- Body of `fromBase58` after the external `bs58check.decode`
(ed25519.ts:214-273): length, version, master-node and private-key-marker
validation, then node construction. -/
def decodeBuffer (buffer : Bytes) (network : Network) :
    Except HdError NodeEd25519 :=
  if buffer.length ≠ 78 then .error (.invalidLength buffer.length)
  else
    let version := readUInt32BE buffer 0
    if version ≠ Network.CATAPULT.privateKeyPfx ∧
        version ≠ Network.CATAPULT.publicKeyPfx then .error .invalidVersion
    else
      let depth := buffer.getD 4 0
      let parentFingerprint := readUInt32BE buffer 5
      if depth = 0 ∧ parentFingerprint ≠ 0 then .error .invalidMasterNode
      else
        let index := readUInt32BE buffer 9
        if depth = 0 ∧ index ≠ 0 then .error .invalidMasterNode
        else
          let chainCode := sliceL buffer 13 45
          if version = Network.CATAPULT.privateKeyPfx then
            if buffer.getD 45 0 ≠ 0 then .error .invalidPrivateKeyMarker
            else
              .ok ⟨some (sliceL buffer 46 78), none, chainCode, network,
                depth, index, parentFingerprint⟩
          else
            .ok ⟨none, some (sliceL buffer 45 78), chainCode, network,
              depth, index, parentFingerprint⟩

/-- `fromBase58` (ed25519.ts:207-274), parameterized by the external
`bs58check.decode` (`none` = thrown checksum/format error). -/
def fromBase58 (dec : Bytes → Option Bytes) (s : Bytes) (network : Network) :
    Except HdError NodeEd25519 :=
  match dec s with
  | none => .error .checksumError
  | some buffer => decodeBuffer buffer network

/-- `toBase58` (ed25519.ts:411-447), parameterized by the external
`bs58check.encode` and by the arbitrary initial contents `alloc` of the
`Buffer.allocUnsafe(78)` buffer.  The version prefix is chosen from
`Network.CATAPULT` (the source reads the constants, not `this.network`). -/
def toBase58 (C : Crypto) (enc : Bytes → Bytes) (alloc : Bytes)
    (n : NodeEd25519) : Except HdError Bytes :=
  let version :=
    if n.isNeutered = false then Network.CATAPULT.privateKeyPfx
    else Network.CATAPULT.publicKeyPfx
  match writeUInt32BEAt alloc 0 version with
  | .error e => .error e
  | .ok b1 =>
    match writeUInt8At b1 4 n.__DEPTH with
    | .error e => .error e
    | .ok b2 =>
      match writeUInt32BEAt b2 5 n.__PARENT_FINGERPRINT with
      | .error e => .error e
      | .ok b3 =>
        match writeUInt32BEAt b3 9 n.__INDEX with
        | .error e => .error e
        | .ok b4 =>
          let b5 := copyAt b4 13 n.chainCode
          if n.isNeutered = false then
            match writeUInt8At b5 45 0 with
            | .error e => .error e
            | .ok b6 =>
              match privateKeyE n with
              | .error e => .error e
              | .ok d => .ok (enc (copyAt b6 46 d))
          else
            match publicKeyE C n with
            | .error e => .error e
            | .ok q => .ok (enc (copyAt b5 45 q.1))

deriving instance DecidableEq for Except

/-- Concrete instantiation of the external collaborators used to evaluate
the definitions on closed inputs. -/
def dC : Crypto :=
  ⟨fun _ _ => List.range 64, fun _ => List.replicate 32 5,
   fun _ => List.replicate 20 1, fun _ b => b⟩

/-- A sample non-neutered child node (depth 1). -/
def wPriv : NodeEd25519 :=
  ⟨some (List.replicate 32 2), none, List.replicate 32 3, Network.CATAPULT, 1, 2, 9⟩

/-- A sample neutered node carrying a 33-byte public point. -/
def wPub : NodeEd25519 :=
  ⟨none, some (List.replicate 33 4), List.replicate 32 3, Network.CATAPULT, 1, 2, 9⟩

/-- A sample neutered node carrying a 32-byte public point (the size
produced by `CatapultECC.extractPublicKey`). -/
def wPub32 : NodeEd25519 :=
  ⟨none, some (List.replicate 32 4), List.replicate 32 3, Network.CATAPULT, 1, 2, 9⟩

/-- A sample master node with a private key. -/
def wMaster : NodeEd25519 :=
  ⟨some (List.replicate 32 2), none, List.replicate 32 3, Network.CATAPULT, 0, 0, 0⟩

/-- The derivation path `m/0'/1` (apostrophe written via its code point). -/
def pathM01 : String := String.mk ['m', '/', '0', apos, '/', '1']

/-- A well-formed 78-byte extended-private-key payload used to exercise
`fromBase58`. -/
def demoBuf : Bytes :=
  [4, 136, 173, 228, 1, 0, 0, 0, 5, 0, 0, 0, 2] ++ List.replicate 32 9 ++
    [0] ++ List.replicate 32 8

/-- Zero-filled model of the `Buffer.allocUnsafe(78)` contents. -/
def allocZ : Bytes := List.replicate 78 0

/-- Identity stand-in for `bs58check.encode` (text modelled as byte list). -/
def idEnc : Bytes → Bytes := fun b => b

/-- Stand-in for `bs58check.decode` matching `idEnc`. -/
def someDec : Bytes → Option Bytes := fun b => some b

lemma ckdPub_eq_fuel_succ (C : Crypto) (parent : NodeEd25519) (i : Nat)
    (hi : i < 2 ^ 32) :
    CKDPub C parent i = CKDPubFuel C (2 ^ 32 - i - 1 + 1) parent i := by
  unfold CKDPub
  congr 1
  omega

lemma ckdPubFuel_succ_eval (C : Crypto) (f : Nat) (parent : NodeEd25519)
    (i : Nat) (pub : Bytes) (hQ : parent.__Q = some pub) (hi : i < 2 ^ 32) :
    CKDPubFuel C (f + 1) parent i =
      .ok (⟨none,
            some (C.pointAdd pub
              ((C.hmacSha512 parent.chainCode (pub ++ ser32 i)).take 32)),
            (C.hmacSha512 parent.chainCode (pub ++ ser32 i)).drop 32,
            Network.CATAPULT, 0, 0, 0⟩,
           { parent with
              __Q := some (C.pointAdd pub
                ((C.hmacSha512 parent.chainCode (pub ++ ser32 i)).take 32)) }) := by
  have hi4 : i < 4294967296 := hi
  simp [CKDPubFuel, serUInt32BE, hi4, publicKeyE, hQ, bufferIsNull]

lemma ckdPubFuel_ne_overflow (C : Crypto) (f : Nat) (p : NodeEd25519)
    (i : Nat) : CKDPubFuel C f p i ≠ .error .indexOverflow := by
  cases f with
  | zero => simp [CKDPubFuel]
  | succ f =>
    by_cases hi : i < 4294967296
    · cases hQ : p.__Q with
      | some q => simp [CKDPubFuel, serUInt32BE, hi, publicKeyE, hQ, bufferIsNull]
      | none =>
        cases hD : p.__D with
        | some d => simp [CKDPubFuel, serUInt32BE, hi, publicKeyE, hQ, hD, bufferIsNull]
        | none => simp [CKDPubFuel, serUInt32BE, hi, publicKeyE, hQ, hD]
    · simp [CKDPubFuel, serUInt32BE, hi]

lemma ckdPriv_ne_overflow (C : Crypto) (p : NodeEd25519) (i : Nat) :
    CKDPriv C p i ≠ .error .indexOverflow := by
  by_cases hi : i < 4294967296
  · cases hD : p.__D with
    | some d => simp [CKDPriv, serUInt32BE, hi, privateKeyE, hD]
    | none => simp [CKDPriv, serUInt32BE, hi, privateKeyE, hD]
  · simp [CKDPriv, serUInt32BE, hi]

lemma derive_ne_overflow (C : Crypto) (n : NodeEd25519) (i : Nat) :
    derive C n i ≠ .error .indexOverflow := by
  unfold derive
  split_ifs with h1 h2
  · simp
  · exact ckdPriv_ne_overflow C n i
  · intro h
    cases hx : CKDPub C n i with
    | error e =>
      rw [hx] at h
      simp only [Except.map] at h
      cases h
      exact ckdPubFuel_ne_overflow C _ n i hx
    | ok a =>
      rw [hx] at h
      simp [Except.map] at h

/-- Claim C1, counterexample.  The claim states that the child returned by
`CKDPriv(parent, index)` has `depth = parent.depth + 1`, `childIndex =
index` and `parentFingerprint = parent.fingerprint`.  On the concrete
parent `wPriv` (depth 1, fingerprint bytes `[1,1,1,1]`) at index 7 the
child actually carries the constructor defaults `depth = 0`, `childIndex =
0`, `parentFingerprint = 0`. -/
theorem ckdPriv_metadata_cex :
    (CKDPriv dC wPriv 7).map
        (fun c => (c.depth, c.index, c.parentFingerprint)) =
      .ok (0, 0, 0) ∧
    (CKDPriv dC wPriv 7).map
        (fun c => (c.depth, c.index, c.parentFingerprint)) ≠
      .ok (wPriv.depth + 1, 7, 16843009) ∧
    (fingerprintE dC wPriv).map (fun p => readUInt32BE p.1 0) =
      .ok 16843009 := by
  decide

/-- Claim C1, amended: for every parent with a private key and every uint32
index, `CKDPriv` returns a child whose private scalar is `IL`, whose chain
code is `IR`, whose public key is unset, and whose remaining fields are the
`NodeEd25519` constructor defaults — `depth = 0`, `childIndex = 0`,
`parentFingerprint = 0` and `network = CATAPULT` — rather than metadata
derived from the parent. -/
theorem ckdPriv_amended (C : Crypto) (parent : NodeEd25519) (i : Nat)
    (d : Bytes) (hD : parent.__D = some d) (hi : i < 2 ^ 32) :
    ∃ child, CKDPriv C parent i = .ok child ∧
      child.__D =
        some ((C.hmacSha512 parent.chainCode ([0] ++ d ++ ser32 i)).take 32) ∧
      child.__Q = none ∧
      child.chainCode =
        (C.hmacSha512 parent.chainCode ([0] ++ d ++ ser32 i)).drop 32 ∧
      child.depth = 0 ∧ child.index = 0 ∧ child.parentFingerprint = 0 ∧
      child.network = Network.CATAPULT := by
  have hi4 : i < 4294967296 := hi
  refine ⟨⟨some ((C.hmacSha512 parent.chainCode ([0] ++ d ++ ser32 i)).take 32),
    none, (C.hmacSha512 parent.chainCode ([0] ++ d ++ ser32 i)).drop 32,
    Network.CATAPULT, 0, 0, 0⟩, ?_, rfl, rfl, rfl, rfl, rfl, rfl, rfl⟩
  simp [CKDPriv, serUInt32BE, hi4, privateKeyE, hD]

/-- Claim C1, amended, witness at `wPriv` and index 7. -/
theorem ckdPriv_amended_witness :
    ∃ child, CKDPriv dC wPriv 7 = .ok child ∧
      child.__D =
        some ((dC.hmacSha512 wPriv.chainCode
          ([0] ++ List.replicate 32 2 ++ ser32 7)).take 32) ∧
      child.__Q = none ∧
      child.chainCode =
        (dC.hmacSha512 wPriv.chainCode
          ([0] ++ List.replicate 32 2 ++ ser32 7)).drop 32 ∧
      child.depth = 0 ∧ child.index = 0 ∧ child.parentFingerprint = 0 ∧
      child.network = Network.CATAPULT :=
  ckdPriv_amended dC wPriv 7 (List.replicate 32 2) (by decide) (by decide)

/-- Claim C4: hardened derivation (`index ≥ 2^31`) on a neutered node fails
with the missing-private-key error and never reaches `CKDPub`; below the
hardened bit, `derive` dispatches to `CKDPriv` when the node has a private
key and to `CKDPub` when it is neutered. -/
theorem derive_dispatch (C : Crypto) (n : NodeEd25519) (i : Nat) :
    (n.isNeutered = true → 2 ^ 31 ≤ i →
      derive C n i = .error .missingPrivateKey) ∧
    (n.isNeutered = false → derive C n i = CKDPriv C n i) ∧
    (n.isNeutered = true → i < 2 ^ 31 →
      derive C n i = (CKDPub C n i).map Prod.fst) := by
  refine ⟨fun hneut hhard => ?_, fun hpriv => ?_, fun hneut hlow => ?_⟩
  · have hbit : NodeEd25519.HIGHEST_BIT ≤ i := hhard
    simp [derive, hbit, hneut]
  · have : ¬ (NodeEd25519.HIGHEST_BIT ≤ i ∧ n.isNeutered = true) := by
      simp [hpriv]
    simp [derive, this, hpriv]
  · have hbit : ¬ NodeEd25519.HIGHEST_BIT ≤ i := by
      have : i < 2147483648 := hlow
      simp [NodeEd25519.HIGHEST_BIT]
      omega
    simp [derive, hbit, hneut]

/-- Claim C4, witness: hardened index `2^31` on the neutered `wPub` fails
with the missing-private-key error; index 1 dispatches to `CKDPriv` on
`wPriv` and to `CKDPub` on `wPub`. -/
theorem derive_dispatch_witness :
    derive dC wPub (2 ^ 31) = .error .missingPrivateKey ∧
    derive dC wPriv 1 = CKDPriv dC wPriv 1 ∧
    derive dC wPub 1 = (CKDPub dC wPub 1).map Prod.fst :=
  ⟨(derive_dispatch dC wPub (2 ^ 31)).1 (by decide) (by norm_num),
   (derive_dispatch dC wPriv 1).2.1 (by decide),
   (derive_dispatch dC wPub 1).2.2 (by decide) (by norm_num)⟩

/-- Claim C5: `deriveHardened(index)` fails with the index-overflow error
exactly when `index > 2^31 - 1`, and otherwise returns exactly
`derive(index + 2^31)`. -/
theorem deriveHardened_spec (C : Crypto) (n : NodeEd25519) (i : Nat) :
    (deriveHardened C n i = .error .indexOverflow ↔ 2 ^ 31 - 1 < i) ∧
    (i ≤ 2 ^ 31 - 1 → deriveHardened C n i = derive C n (i + 2 ^ 31)) := by
  have hbit : i + NodeEd25519.HIGHEST_BIT = i + 2 ^ 31 := by
    simp [NodeEd25519.HIGHEST_BIT]
  constructor
  · constructor
    · intro h
      by_contra hle
      rw [deriveHardened, if_neg hle] at h
      exact derive_ne_overflow C n (i + NodeEd25519.HIGHEST_BIT) h
    · intro h
      rw [deriveHardened, if_pos h]
  · intro h
    rw [deriveHardened, if_neg (by omega), hbit]

/-- Claim C5, witness: index `2^31` overflows, index 0 delegates to
`derive(2^31)`. -/
theorem deriveHardened_spec_witness :
    deriveHardened dC wPriv (2 ^ 31) = .error .indexOverflow ∧
    deriveHardened dC wPriv 0 = derive dC wPriv (0 + 2 ^ 31) :=
  ⟨(deriveHardened_spec dC wPriv (2 ^ 31)).1.mpr (by norm_num),
   (deriveHardened_spec dC wPriv 0).2 (by norm_num)⟩

/-- Claim C7: `fromSeed` rejects every seed shorter than 16 or longer than
64 bytes with the invalid-seed-length error and accepts every other seed,
producing the master node `(IL, IR)` of the HMAC keyed by `Catapult seed`. -/
theorem fromSeed_length_gate (C : Crypto) (seed : Bytes) (net : Network) :
    (seed.length < 16 ∨ 64 < seed.length →
      fromSeed C seed net = .error .invalidSeedLength) ∧
    (16 ≤ seed.length → seed.length ≤ 64 →
      fromSeed C seed net =
        .ok ⟨some ((C.hmacSha512 catapultSeedKey seed).take 32), none,
          (C.hmacSha512 catapultSeedKey seed).drop 32, net, 0, 0, 0⟩) := by
  constructor
  · rintro (h | h)
    · rw [fromSeed, if_pos h]
    · rw [fromSeed]
      rw [if_neg (by omega), if_pos h]
  · intro h1 h2
    rw [fromSeed, if_neg (by omega), if_neg (by omega)]

/-- Claim C7, witness at the boundary lengths 15, 16, 64 and 65. -/
theorem fromSeed_length_gate_witness :
    fromSeed dC (List.replicate 15 1) Network.CATAPULT =
      .error .invalidSeedLength ∧
    fromSeed dC (List.replicate 65 1) Network.CATAPULT =
      .error .invalidSeedLength ∧
    fromSeed dC (List.replicate 16 1) Network.CATAPULT =
      .ok ⟨some ((dC.hmacSha512 catapultSeedKey (List.replicate 16 1)).take 32),
        none, (dC.hmacSha512 catapultSeedKey (List.replicate 16 1)).drop 32,
        Network.CATAPULT, 0, 0, 0⟩ ∧
    fromSeed dC (List.replicate 64 1) Network.CATAPULT =
      .ok ⟨some ((dC.hmacSha512 catapultSeedKey (List.replicate 64 1)).take 32),
        none, (dC.hmacSha512 catapultSeedKey (List.replicate 64 1)).drop 32,
        Network.CATAPULT, 0, 0, 0⟩ :=
  ⟨(fromSeed_length_gate dC (List.replicate 15 1) Network.CATAPULT).1
      (Or.inl (by decide)),
   (fromSeed_length_gate dC (List.replicate 65 1) Network.CATAPULT).1
      (Or.inr (by decide)),
   (fromSeed_length_gate dC (List.replicate 16 1) Network.CATAPULT).2
      (by decide) (by decide),
   (fromSeed_length_gate dC (List.replicate 64 1) Network.CATAPULT).2
      (by decide) (by decide)⟩

/-- Claim C9: `neutered()` returns a new node with the private scalar
stripped and every other field copied; the result is neutered and its
public key equals the original node's public key. -/
theorem neutered_spec (C : Crypto) (n : NodeEd25519)
    (hvalid : n.__D ≠ none ∨ n.__Q ≠ none) :
    ∃ q m n1, publicKeyE C n = .ok (q, n1) ∧ neutered C n = .ok m ∧
      m.__D = none ∧ m.__Q = some q ∧ m.chainCode = n.chainCode ∧
      m.network = n.network ∧ m.depth = n.depth ∧ m.index = n.index ∧
      m.parentFingerprint = n.parentFingerprint ∧
      m.isNeutered = true ∧ publicKeyE C m = .ok (q, m) := by
  cases hQ : n.__Q with
  | some q =>
    refine ⟨q, ⟨none, some q, n.chainCode, n.network, n.__DEPTH, n.__INDEX,
      n.__PARENT_FINGERPRINT⟩, n, ?_, ?_, rfl, rfl, rfl, rfl, rfl, rfl, rfl, rfl, rfl⟩
    · simp [publicKeyE, hQ]
    · simp [neutered, publicKeyE, hQ]
  | none =>
    cases hD : n.__D with
    | some d =>
      refine ⟨C.extractPublicKey d, ⟨none, some (C.extractPublicKey d),
        n.chainCode, n.network, n.__DEPTH, n.__INDEX, n.__PARENT_FINGERPRINT⟩,
        { n with __Q := some (C.extractPublicKey d) },
        ?_, ?_, rfl, rfl, rfl, rfl, rfl, rfl, rfl, rfl, rfl⟩
      · simp [publicKeyE, hQ, hD]
      · simp [neutered, publicKeyE, hQ, hD]
    | none =>
      rcases hvalid with h | h
      · exact absurd hD h
      · exact absurd hQ h

/-- Claim C9, witness: `neutered` on the non-neutered `wPriv` (whose public
key is computed lazily). -/
theorem neutered_spec_witness :
    ∃ q m n1, publicKeyE dC wPriv = .ok (q, n1) ∧ neutered dC wPriv = .ok m ∧
      m.__D = none ∧ m.__Q = some q ∧ m.chainCode = wPriv.chainCode ∧
      m.network = wPriv.network ∧ m.depth = wPriv.depth ∧
      m.index = wPriv.index ∧
      m.parentFingerprint = wPriv.parentFingerprint ∧
      m.isNeutered = true ∧ publicKeyE dC m = .ok (q, m) :=
  neutered_spec dC wPriv (Or.inl (by decide))

/-- Claim C3, counterexample.  The claim states that no operation — in
particular no child derivation such as `CKDPub` — alters any field of an
existing node.  On the concrete neutered parent `wPub`, `CKDPub` overwrites
the parent's cached public key in place (`nacl_catapult.add(Ki, IL)` with
`Ki` aliasing `parent.publicKey`): the parent after the call differs from
the parent before it. -/
theorem ckdPub_mutation_cex :
    (CKDPub dC wPub 0).map Prod.snd ≠ .ok wPub ∧
    (CKDPub dC wPub 0).map (fun r => r.2.__Q) =
      .ok (some ((List.range 64).take 32)) ∧
    wPub.__Q = some (List.replicate 33 4) := by
  refine ⟨?_, by decide, by decide⟩
  decide

/-- Claim C3, amended: a node is immutable after construction except for
the one-time lazy memoization of its public key — reading an already-cached
public key returns the cached value and leaves the node unchanged — and
except for `CKDPub`, which overwrites the parent's cached public point with
the freshly computed child point (all other parent fields unchanged). -/
theorem node_mutation_profile (C : Crypto) (n : NodeEd25519) (pub : Bytes)
    (i : Nat) (hQ : n.__Q = some pub) (hi : i < 2 ^ 32) :
    publicKeyE C n = .ok (pub, n) ∧
    ∃ child, CKDPub C n i = .ok (child, { n with __Q := child.__Q }) ∧
      child.__Q =
        some (C.pointAdd pub
          ((C.hmacSha512 n.chainCode (pub ++ ser32 i)).take 32)) := by
  constructor
  · simp [publicKeyE, hQ]
  · refine ⟨⟨none,
      some (C.pointAdd pub ((C.hmacSha512 n.chainCode (pub ++ ser32 i)).take 32)),
      (C.hmacSha512 n.chainCode (pub ++ ser32 i)).drop 32,
      Network.CATAPULT, 0, 0, 0⟩, ?_, rfl⟩
    rw [ckdPub_eq_fuel_succ C n i hi, ckdPubFuel_succ_eval C _ n i pub hQ hi]

/-- Claim C3, amended, witness at `wPub` and index 0. -/
theorem node_mutation_profile_witness :
    publicKeyE dC wPub = .ok (List.replicate 33 4, wPub) ∧
    ∃ child, CKDPub dC wPub 0 = .ok (child, { wPub with __Q := child.__Q }) ∧
      child.__Q =
        some (dC.pointAdd (List.replicate 33 4)
          ((dC.hmacSha512 wPub.chainCode
            (List.replicate 33 4 ++ ser32 0)).take 32)) :=
  node_mutation_profile dC wPub (List.replicate 33 4) 0 (by decide) (by norm_num)

/-- Claim C10: on a neutered parent (cached public point present) and any
uint32 index, `CKDPub` returns on its first invocation: the `Ki === null`
retry branch is unreachable (`Ki` is the parent's — never null — public key
buffer mutated in place by the curve add), so the result coincides with the
straight-line `CKDPubOnce` and the child's public point is the very value
left in the parent's buffer. -/
theorem ckdPub_no_retry (C : Crypto) (parent : NodeEd25519) (i : Nat)
    (pub : Bytes) (hQ : parent.__Q = some pub) (hi : i < 2 ^ 32) :
    CKDPub C parent i = CKDPubOnce C parent i ∧
    ∃ child pAfter, CKDPubOnce C parent i = .ok (child, pAfter) ∧
      child.__Q = pAfter.__Q ∧ bufferIsNull (C.pointAdd pub
        ((C.hmacSha512 parent.chainCode (pub ++ ser32 i)).take 32)) = false := by
  have hi4 : i < 4294967296 := hi
  have honce : CKDPubOnce C parent i =
      .ok (⟨none,
            some (C.pointAdd pub
              ((C.hmacSha512 parent.chainCode (pub ++ ser32 i)).take 32)),
            (C.hmacSha512 parent.chainCode (pub ++ ser32 i)).drop 32,
            Network.CATAPULT, 0, 0, 0⟩,
           { parent with
              __Q := some (C.pointAdd pub
                ((C.hmacSha512 parent.chainCode (pub ++ ser32 i)).take 32)) }) := by
    simp [CKDPubOnce, serUInt32BE, hi4, publicKeyE, hQ]
  refine ⟨?_, ⟨_, _, honce, rfl, rfl⟩⟩
  rw [ckdPub_eq_fuel_succ C parent i hi, ckdPubFuel_succ_eval C _ parent i pub hQ hi,
    honce]

/-- Claim C10, witness at `wPub` and index 5. -/
theorem ckdPub_no_retry_witness :
    CKDPub dC wPub 5 = CKDPubOnce dC wPub 5 ∧
    ∃ child pAfter, CKDPubOnce dC wPub 5 = .ok (child, pAfter) ∧
      child.__Q = pAfter.__Q ∧ bufferIsNull (dC.pointAdd (List.replicate 33 4)
        ((dC.hmacSha512 wPub.chainCode
          (List.replicate 33 4 ++ ser32 5)).take 32)) = false :=
  ckdPub_no_retry dC wPub 5 (List.replicate 33 4) (by decide) (by norm_num)

lemma fromBase58_eq_decode (dec : Bytes → Option Bytes) (s : Bytes)
    (net : Network) (buffer : Bytes) (hdec : dec s = some buffer) :
    fromBase58 dec s net = decodeBuffer buffer net := by
  rw [fromBase58, hdec]

lemma decodeBuffer_cases (buffer : Bytes) (net : Network) :
    (buffer.length ≠ 78 →
      decodeBuffer buffer net = .error (.invalidLength buffer.length)) ∧
    (buffer.length = 78 →
      readUInt32BE buffer 0 ≠ Network.CATAPULT.privateKeyPfx →
      readUInt32BE buffer 0 ≠ Network.CATAPULT.publicKeyPfx →
      decodeBuffer buffer net = .error .invalidVersion) ∧
    (buffer.length = 78 →
      (readUInt32BE buffer 0 = Network.CATAPULT.privateKeyPfx ∨
        readUInt32BE buffer 0 = Network.CATAPULT.publicKeyPfx) →
      buffer.getD 4 0 = 0 →
      (readUInt32BE buffer 5 ≠ 0 ∨ readUInt32BE buffer 9 ≠ 0) →
      decodeBuffer buffer net = .error .invalidMasterNode) ∧
    (buffer.length = 78 →
      readUInt32BE buffer 0 = Network.CATAPULT.privateKeyPfx →
      (buffer.getD 4 0 = 0 →
        readUInt32BE buffer 5 = 0 ∧ readUInt32BE buffer 9 = 0) →
      buffer.getD 45 0 ≠ 0 →
      decodeBuffer buffer net = .error .invalidPrivateKeyMarker) ∧
    (buffer.length = 78 →
      (buffer.getD 4 0 = 0 →
        readUInt32BE buffer 5 = 0 ∧ readUInt32BE buffer 9 = 0) →
      (readUInt32BE buffer 0 = Network.CATAPULT.privateKeyPfx →
        buffer.getD 45 0 = 0 →
        decodeBuffer buffer net =
          .ok ⟨some (sliceL buffer 46 78), none, sliceL buffer 13 45, net,
            buffer.getD 4 0, readUInt32BE buffer 9, readUInt32BE buffer 5⟩) ∧
      (readUInt32BE buffer 0 = Network.CATAPULT.publicKeyPfx →
        decodeBuffer buffer net =
          .ok ⟨none, some (sliceL buffer 45 78), sliceL buffer 13 45, net,
            buffer.getD 4 0, readUInt32BE buffer 9, readUInt32BE buffer 5⟩)) := by
  refine ⟨fun hlen => ?_, fun hlen hv1 hv2 => ?_, fun hlen hv hz hnm => ?_,
    fun hlen hv hmaster hmark => ?_, fun hlen hmaster => ⟨fun hv hmark => ?_, fun hv => ?_⟩⟩
  · rw [decodeBuffer, if_pos hlen]
  · rw [decodeBuffer, if_neg (by omega)]
    simp only []
    rw [if_pos ⟨hv1, hv2⟩]
  · rw [decodeBuffer, if_neg (by omega)]
    simp only []
    rw [if_neg (by rintro ⟨h1, h2⟩; rcases hv with h | h <;> exact absurd h (by assumption))]
    rcases hnm with hf | hi
    · rw [if_pos ⟨hz, hf⟩]
    · by_cases hf : readUInt32BE buffer 5 = 0
      · rw [if_neg (by rintro ⟨_, h⟩; exact h hf), if_pos ⟨hz, hi⟩]
      · rw [if_pos ⟨hz, hf⟩]
  · have hvp : readUInt32BE buffer 0 ≠ Network.CATAPULT.privateKeyPfx ∧
        readUInt32BE buffer 0 ≠ Network.CATAPULT.publicKeyPfx → False := by
      rintro ⟨h1, _⟩; exact h1 hv
    rw [decodeBuffer, if_neg (by omega)]
    simp only []
    rw [if_neg hvp,
      if_neg (by rintro ⟨hz, hf⟩; exact hf (hmaster hz).1),
      if_neg (by rintro ⟨hz, hi⟩; exact hi (hmaster hz).2),
      if_pos hv, if_pos hmark]
  · rw [decodeBuffer, if_neg (by omega)]
    simp only []
    rw [if_neg (by rintro ⟨h1, _⟩; exact h1 hv),
      if_neg (by rintro ⟨hz, hf⟩; exact hf (hmaster hz).1),
      if_neg (by rintro ⟨hz, hi⟩; exact hi (hmaster hz).2),
      if_pos hv, if_neg (fun h => h hmark)]
  · have hvne : readUInt32BE buffer 0 ≠ Network.CATAPULT.privateKeyPfx := by
      rw [hv]; decide
    rw [decodeBuffer, if_neg (by omega)]
    simp only []
    rw [if_neg (by rintro ⟨_, h2⟩; exact h2 hv),
      if_neg (by rintro ⟨hz, hf⟩; exact hf (hmaster hz).1),
      if_neg (by rintro ⟨hz, hi⟩; exact hi (hmaster hz).2),
      if_neg hvne]

/-- Claim C6: the validation chain of `fromBase58` — length 78, version in
the configured prefix pair, master-node consistency at depth 0, the `0x00`
marker of a private key field — with the stated error for each violation,
and on success a node carrying exactly one of the two key materials. -/
theorem fromBase58_validation (dec : Bytes → Option Bytes) (s : Bytes)
    (net : Network) (buffer : Bytes) (hdec : dec s = some buffer) :
    (buffer.length ≠ 78 →
      fromBase58 dec s net = .error (.invalidLength buffer.length)) ∧
    (buffer.length = 78 →
      readUInt32BE buffer 0 ≠ Network.CATAPULT.privateKeyPfx →
      readUInt32BE buffer 0 ≠ Network.CATAPULT.publicKeyPfx →
      fromBase58 dec s net = .error .invalidVersion) ∧
    (buffer.length = 78 →
      (readUInt32BE buffer 0 = Network.CATAPULT.privateKeyPfx ∨
        readUInt32BE buffer 0 = Network.CATAPULT.publicKeyPfx) →
      buffer.getD 4 0 = 0 →
      (readUInt32BE buffer 5 ≠ 0 ∨ readUInt32BE buffer 9 ≠ 0) →
      fromBase58 dec s net = .error .invalidMasterNode) ∧
    (buffer.length = 78 →
      readUInt32BE buffer 0 = Network.CATAPULT.privateKeyPfx →
      (buffer.getD 4 0 = 0 →
        readUInt32BE buffer 5 = 0 ∧ readUInt32BE buffer 9 = 0) →
      buffer.getD 45 0 ≠ 0 →
      fromBase58 dec s net = .error .invalidPrivateKeyMarker) ∧
    (buffer.length = 78 →
      (buffer.getD 4 0 = 0 →
        readUInt32BE buffer 5 = 0 ∧ readUInt32BE buffer 9 = 0) →
      (readUInt32BE buffer 0 = Network.CATAPULT.privateKeyPfx →
        buffer.getD 45 0 = 0 →
        fromBase58 dec s net =
          .ok ⟨some (sliceL buffer 46 78), none, sliceL buffer 13 45, net,
            buffer.getD 4 0, readUInt32BE buffer 9, readUInt32BE buffer 5⟩) ∧
      (readUInt32BE buffer 0 = Network.CATAPULT.publicKeyPfx →
        fromBase58 dec s net =
          .ok ⟨none, some (sliceL buffer 45 78), sliceL buffer 13 45, net,
            buffer.getD 4 0, readUInt32BE buffer 9, readUInt32BE buffer 5⟩)) := by
  rw [fromBase58_eq_decode dec s net buffer hdec]
  exact decodeBuffer_cases buffer net

/-- Claim C6, witness: decoding the concrete well-formed private payload
`demoBuf` succeeds with the private scalar set and no public point. -/
theorem fromBase58_validation_witness :
    fromBase58 someDec demoBuf Network.CATAPULT =
      .ok ⟨some (sliceL demoBuf 46 78), none, sliceL demoBuf 13 45,
        Network.CATAPULT, demoBuf.getD 4 0, readUInt32BE demoBuf 9,
        readUInt32BE demoBuf 5⟩ :=
  ((fromBase58_validation someDec demoBuf Network.CATAPULT demoBuf
    rfl).2.2.2.2 (by decide) (by decide)).1 (by decide) (by decide)

/-- Claim C8: on a master node (zero parent fingerprint) with a private
key, `derivePath "m/0'/1"` coincides with `deriveHardened 0` followed by
`derive 1` — the path is validated, the `m` segment stripped, and the
remaining segments folded left-to-right with `deriveHardened` for hardened
segments and `derive` for normal ones. -/
theorem derivePath_m0h1 (C : Crypto) (n : NodeEd25519) (d : Bytes)
    (hm : n.__PARENT_FINGERPRINT = 0) (_hD : n.__D = some d) :
    derivePath C n pathM01 =
      (deriveHardened C n 0).bind fun m => derive C m 1 := by
  have hvalid : isValidPath pathM01 = true := by decide
  have hsplit : splitSlash pathM01.data = [['m'], ['0', apos], ['1']] := by decide
  rw [derivePath]
  rw [if_neg (by simp [hvalid])]
  simp only [hsplit, hm]
  rw [if_neg (by simp)]
  simp only [List.head?, List.drop, List.foldlM]
  have h1 : (['0', apos].getLast? = some apos) = True := by decide
  have h2 : (['1'].getLast? = some apos) = False := by decide
  simp only [if_pos (of_eq_true h1), h2, if_false]
  have hp0 : parseDigits (['0', apos].dropLast) = 0 := by decide
  have hp1 : parseDigits ['1'] = 1 := by decide
  rw [hp0, hp1]
  cases hdh : deriveHardened C n 0 with
  | error e => rfl
  | ok m =>
    show (derive C m 1).bind pure = derive C m 1
    cases hd2 : derive C m 1 with
    | error e => rfl
    | ok r => rfl

/-- Claim C8, witness at the concrete master node `wMaster`. -/
theorem derivePath_m0h1_witness :
    derivePath dC wMaster pathM01 =
      (deriveHardened dC wMaster 0).bind fun m => derive dC m 1 :=
  derivePath_m0h1 dC wMaster (List.replicate 32 2) rfl rfl

lemma ser32_len (x : Nat) : (ser32 x).length = 4 := by simp [ser32]

lemma take_app_len (a b : List Nat) (n : Nat) (h : a.length = n) :
    (a ++ b).take n = a := List.take_left' h

lemma drop_app_len (a b : List Nat) (n : Nat) (h : a.length = n) :
    (a ++ b).drop n = b := List.drop_left' h

lemma take_app_ge (a b : List Nat) (n : Nat) (h : a.length ≤ n) :
    (a ++ b).take n = a ++ b.take (n - a.length) := by
  rw [List.take_append_eq_append_take, List.take_of_length_le h]

lemma drop_app_ge (a b : List Nat) (n : Nat) (h : a.length ≤ n) :
    (a ++ b).drop n = b.drop (n - a.length) := by
  rw [List.drop_append_eq_append_drop, List.drop_eq_nil_of_le h, List.nil_append]

lemma getD_app_ge (a b : List Nat) (n : Nat) (h : a.length ≤ n) :
    (a ++ b).getD n 0 = b.getD (n - a.length) 0 :=
  List.getD_append_right a b 0 n h

lemma readUInt32BE_app (a rest : Bytes) (off : Nat) (h : a.length = off) :
    readUInt32BE (a ++ rest) off = readUInt32BE rest 0 := by
  unfold readUInt32BE
  rw [getD_app_ge a rest off (by omega), getD_app_ge a rest (off + 1) (by omega),
    getD_app_ge a rest (off + 2) (by omega), getD_app_ge a rest (off + 3) (by omega)]
  have e0 : off - a.length = 0 := by omega
  have e1 : off + 1 - a.length = 1 := by omega
  have e2 : off + 2 - a.length = 2 := by omega
  have e3 : off + 3 - a.length = 3 := by omega
  rw [e0, e1, e2, e3]

lemma readUInt32BE_ser32 (x : Nat) (rest : Bytes) (hx : x < 4294967296) :
    readUInt32BE (ser32 x ++ rest) 0 = x := by
  simp only [readUInt32BE, ser32, List.cons_append, List.nil_append,
    List.getD_cons_zero, List.getD_cons_succ]
  omega

lemma toBase58_writes (alloc : Bytes) (ver dep pfp idx : Nat) (cc : Bytes)
    (halloc : alloc.length = 78) (hver : ver < 4294967296) (hdep : dep < 256)
    (hpfp : pfp < 4294967296) (hidx : idx < 4294967296) (hcc : cc.length = 32) :
    writeUInt32BEAt alloc 0 ver = .ok (ser32 ver ++ alloc.drop 4) ∧
    writeUInt8At (ser32 ver ++ alloc.drop 4) 4 dep =
      .ok (ser32 ver ++ [dep] ++ alloc.drop 5) ∧
    writeUInt32BEAt (ser32 ver ++ [dep] ++ alloc.drop 5) 5 pfp =
      .ok (ser32 ver ++ [dep] ++ ser32 pfp ++ alloc.drop 9) ∧
    writeUInt32BEAt (ser32 ver ++ [dep] ++ ser32 pfp ++ alloc.drop 9) 9 idx =
      .ok (ser32 ver ++ [dep] ++ ser32 pfp ++ ser32 idx ++ alloc.drop 13) ∧
    copyAt (ser32 ver ++ [dep] ++ ser32 pfp ++ ser32 idx ++ alloc.drop 13) 13 cc =
      ser32 ver ++ [dep] ++ ser32 pfp ++ ser32 idx ++ cc ++ alloc.drop 45 := by
  refine ⟨?_, ?_, ?_, ?_, ?_⟩
  · rw [writeUInt32BEAt, if_pos ⟨hver, by omega⟩]
    simp
  · rw [writeUInt8At, if_pos ⟨hdep, by simp [ser32_len, halloc]⟩]
    simp [List.take_append_eq_append_take, List.drop_append_eq_append_drop,
      ser32_len, List.drop_drop, List.take_of_length_le, List.drop_eq_nil_of_le,
      halloc]
  · rw [writeUInt32BEAt, if_pos ⟨hpfp, by simp [ser32_len, halloc]⟩]
    simp [List.take_append_eq_append_take, List.drop_append_eq_append_drop,
      ser32_len, List.drop_drop, List.take_of_length_le, List.drop_eq_nil_of_le,
      halloc]
  · rw [writeUInt32BEAt, if_pos ⟨hidx, by simp [ser32_len, halloc]⟩]
    simp [List.take_append_eq_append_take, List.drop_append_eq_append_drop,
      ser32_len, List.drop_drop, List.take_of_length_le, List.drop_eq_nil_of_le,
      halloc]
  · rw [copyAt]
    simp [List.take_append_eq_append_take, List.drop_append_eq_append_drop,
      ser32_len, List.drop_drop, List.take_of_length_le, List.drop_eq_nil_of_le,
      halloc, hcc]

lemma toBase58_layout_priv (C : Crypto) (enc : Bytes → Bytes) (alloc : Bytes)
    (n : NodeEd25519) (k : Bytes) (halloc : alloc.length = 78)
    (hD : n.__D = some k) (hk : k.length = 32) (hdep : n.__DEPTH < 256)
    (hpfp : n.__PARENT_FINGERPRINT < 4294967296)
    (hidx : n.__INDEX < 4294967296) (hcc : n.chainCode.length = 32) :
    toBase58 C enc alloc n =
      .ok (enc (ser32 Network.CATAPULT.privateKeyPfx ++ [n.__DEPTH] ++
        ser32 n.__PARENT_FINGERPRINT ++ ser32 n.__INDEX ++ n.chainCode ++
        [0] ++ k)) := by
  have hneut : n.isNeutered = false := by simp [NodeEd25519.isNeutered, hD]
  obtain ⟨e1, e2, e3, e4, e5⟩ :=
    toBase58_writes alloc Network.CATAPULT.privateKeyPfx n.__DEPTH
      n.__PARENT_FINGERPRINT n.__INDEX n.chainCode halloc (by decide)
      hdep hpfp hidx hcc
  have e6 : writeUInt8At (ser32 Network.CATAPULT.privateKeyPfx ++ [n.__DEPTH] ++
      ser32 n.__PARENT_FINGERPRINT ++ ser32 n.__INDEX ++ n.chainCode ++
      alloc.drop 45) 45 0 =
      .ok (ser32 Network.CATAPULT.privateKeyPfx ++ [n.__DEPTH] ++
        ser32 n.__PARENT_FINGERPRINT ++ ser32 n.__INDEX ++ n.chainCode ++
        [0] ++ alloc.drop 46) := by
    rw [writeUInt8At, if_pos ⟨by norm_num, by simp [ser32_len, halloc, hcc]⟩]
    simp [List.take_append_eq_append_take, List.drop_append_eq_append_drop,
      ser32_len, List.drop_drop, List.take_of_length_le, List.drop_eq_nil_of_le,
      halloc, hcc]
  have e7 : privateKeyE n = .ok k := by simp [privateKeyE, hD]
  have e8 : copyAt (ser32 Network.CATAPULT.privateKeyPfx ++ [n.__DEPTH] ++
      ser32 n.__PARENT_FINGERPRINT ++ ser32 n.__INDEX ++ n.chainCode ++
      [0] ++ alloc.drop 46) 46 k =
      ser32 Network.CATAPULT.privateKeyPfx ++ [n.__DEPTH] ++
        ser32 n.__PARENT_FINGERPRINT ++ ser32 n.__INDEX ++ n.chainCode ++
        [0] ++ k := by
    rw [copyAt]
    simp [List.take_append_eq_append_take, List.drop_append_eq_append_drop,
      ser32_len, List.drop_drop, List.take_of_length_le, List.drop_eq_nil_of_le,
      halloc, hcc, hk]
  rw [toBase58]
  simp only []
  rw [if_pos hneut, e1]
  simp only []
  rw [e2]
  simp only []
  rw [e3]
  simp only []
  rw [e4]
  simp only []
  rw [if_pos hneut, e5, e6]
  simp only []
  rw [e7]
  simp only []
  rw [e8]

lemma toBase58_layout_pub (C : Crypto) (enc : Bytes → Bytes) (alloc : Bytes)
    (n : NodeEd25519) (q : Bytes) (halloc : alloc.length = 78)
    (hD : n.__D = none) (hQ : n.__Q = some q) (hq : q.length = 33)
    (hdep : n.__DEPTH < 256) (hpfp : n.__PARENT_FINGERPRINT < 4294967296)
    (hidx : n.__INDEX < 4294967296) (hcc : n.chainCode.length = 32) :
    toBase58 C enc alloc n =
      .ok (enc (ser32 Network.CATAPULT.publicKeyPfx ++ [n.__DEPTH] ++
        ser32 n.__PARENT_FINGERPRINT ++ ser32 n.__INDEX ++ n.chainCode ++
        q)) := by
  have hneut : n.isNeutered = true := by simp [NodeEd25519.isNeutered, hD]
  obtain ⟨e1, e2, e3, e4, e5⟩ :=
    toBase58_writes alloc Network.CATAPULT.publicKeyPfx n.__DEPTH
      n.__PARENT_FINGERPRINT n.__INDEX n.chainCode halloc (by decide)
      hdep hpfp hidx hcc
  have e6 : publicKeyE C n = .ok (q, n) := by simp [publicKeyE, hQ]
  have e8 : copyAt (ser32 Network.CATAPULT.publicKeyPfx ++ [n.__DEPTH] ++
      ser32 n.__PARENT_FINGERPRINT ++ ser32 n.__INDEX ++ n.chainCode ++
      alloc.drop 45) 45 q =
      ser32 Network.CATAPULT.publicKeyPfx ++ [n.__DEPTH] ++
        ser32 n.__PARENT_FINGERPRINT ++ ser32 n.__INDEX ++ n.chainCode ++ q := by
    rw [copyAt]
    simp [List.take_append_eq_append_take, List.drop_append_eq_append_drop,
      ser32_len, List.drop_drop, List.take_of_length_le, List.drop_eq_nil_of_le,
      halloc, hcc, hq]
  have hne : ¬ (n.isNeutered = false) := by simp [hneut]
  rw [toBase58]
  simp only []
  rw [if_neg hne, e1]
  simp only []
  rw [e2]
  simp only []
  rw [e3]
  simp only []
  rw [e4]
  simp only []
  rw [if_neg hne, e5, e6]
  simp only []
  rw [e8]

lemma getD_drop0 (l : List Nat) (off i : Nat) :
    (l.drop off).getD i 0 = l.getD (off + i) 0 := by
  simp [List.getD_eq_getElem?_getD, List.getElem?_drop]

lemma readUInt32BE_drop (L : Bytes) (off : Nat) :
    readUInt32BE L off = readUInt32BE (L.drop off) 0 := by
  simp [readUInt32BE, getD_drop0, Nat.add_assoc]

lemma layout_reads (L : Bytes) (ver dep pfp idx : Nat) (cc key : Bytes)
    (hL : L = ser32 ver ++ ([dep] ++ (ser32 pfp ++ (ser32 idx ++ (cc ++ key)))))
    (hver : ver < 4294967296) (hpfp : pfp < 4294967296)
    (hidx : idx < 4294967296) (hcc : cc.length = 32) (hkey : key.length = 33) :
    L.length = 78 ∧ readUInt32BE L 0 = ver ∧ L.getD 4 0 = dep ∧
    readUInt32BE L 5 = pfp ∧ readUInt32BE L 9 = idx ∧
    sliceL L 13 45 = cc ∧ sliceL L 45 78 = key ∧
    L.getD 45 0 = key.getD 0 0 ∧ sliceL L 46 78 = key.drop 1 := by
  have hd4 : L.drop 4 = [dep] ++ (ser32 pfp ++ (ser32 idx ++ (cc ++ key))) := by
    subst hL
    simp [List.drop_append_eq_append_drop, ser32_len, List.drop_eq_nil_of_le]
  have hd5 : L.drop 5 = ser32 pfp ++ (ser32 idx ++ (cc ++ key)) := by
    subst hL
    simp [List.drop_append_eq_append_drop, ser32_len, List.drop_eq_nil_of_le]
  have hd9 : L.drop 9 = ser32 idx ++ (cc ++ key) := by
    subst hL
    simp [List.drop_append_eq_append_drop, ser32_len, List.drop_eq_nil_of_le]
  have hd13 : L.drop 13 = cc ++ key := by
    subst hL
    simp [List.drop_append_eq_append_drop, ser32_len, List.drop_eq_nil_of_le]
  have hd45 : L.drop 45 = key := by
    subst hL
    simp [List.drop_append_eq_append_drop, ser32_len, List.drop_eq_nil_of_le,
      List.drop_drop, hcc]
  have hd46 : L.drop 46 = key.drop 1 := by
    subst hL
    simp [List.drop_append_eq_append_drop, ser32_len, List.drop_eq_nil_of_le,
      List.drop_drop, hcc]
  refine ⟨?_, ?_, ?_, ?_, ?_, ?_, ?_, ?_, ?_⟩
  · subst hL
    simp [ser32_len, hcc, hkey]
  · subst hL
    exact readUInt32BE_ser32 ver _ hver
  · have : L.getD 4 0 = (L.drop 4).getD 0 0 := by rw [getD_drop0]
    rw [this, hd4]
    simp
  · rw [readUInt32BE_drop L 5, hd5]
    exact readUInt32BE_ser32 pfp _ hpfp
  · rw [readUInt32BE_drop L 9, hd9]
    exact readUInt32BE_ser32 idx _ hidx
  · rw [sliceL, hd13]
    norm_num
    exact take_app_len cc key 32 hcc
  · rw [sliceL, hd45]
    norm_num
    exact hkey.le
  · have : L.getD 45 0 = (L.drop 45).getD 0 0 := by rw [getD_drop0]
    rw [this, hd45]
  · rw [sliceL, hd46]
    norm_num
    exact hkey.le

/-- Claim C2, amended: for every valid node whose key material has the
serialized field sizes — a 32-byte private scalar, or (neutered) a 33-byte
public point — `fromBase58 (toBase58 node)` yields a node whose depth,
childIndex, parentFingerprint, chainCode and key material are bit-for-bit
equal to the original's.  (For a neutered node holding a 32-byte public
point the decoded point is 33 bytes long — see the counterexample.) -/
theorem toBase58_fromBase58_roundtrip (C : Crypto) (enc : Bytes → Bytes)
    (dec : Bytes → Option Bytes) (alloc : Bytes) (n : NodeEd25519)
    (hcodec : ∀ b, dec (enc b) = some b)
    (halloc : alloc.length = 78) (hdep : n.__DEPTH < 256)
    (hpfp : n.__PARENT_FINGERPRINT < 2 ^ 32) (hidx : n.__INDEX < 2 ^ 32)
    (hcc : n.chainCode.length = 32)
    (hmaster : n.__DEPTH = 0 → n.__PARENT_FINGERPRINT = 0 ∧ n.__INDEX = 0)
    (hkey : (∃ k, n.__D = some k ∧ k.length = 32) ∨
      (n.__D = none ∧ ∃ q, n.__Q = some q ∧ q.length = 33)) :
    ∃ s node2, toBase58 C enc alloc n = .ok s ∧
      fromBase58 dec s Network.CATAPULT = .ok node2 ∧
      node2.depth = n.depth ∧ node2.index = n.index ∧
      node2.parentFingerprint = n.parentFingerprint ∧
      node2.chainCode = n.chainCode ∧ node2.__D = n.__D ∧
      (n.__D = none → node2.__Q = n.__Q) := by
  have hpfp4 : n.__PARENT_FINGERPRINT < 4294967296 := hpfp
  have hidx4 : n.__INDEX < 4294967296 := hidx
  rcases hkey with ⟨k, hD, hk⟩ | ⟨hD, q, hQ, hq⟩
  · have hlay := toBase58_layout_priv C enc alloc n k halloc hD hk hdep hpfp4 hidx4 hcc
    have hreads := layout_reads
      (ser32 Network.CATAPULT.privateKeyPfx ++ [n.__DEPTH] ++
        ser32 n.__PARENT_FINGERPRINT ++ ser32 n.__INDEX ++ n.chainCode ++
        [0] ++ k)
      Network.CATAPULT.privateKeyPfx n.__DEPTH n.__PARENT_FINGERPRINT
      n.__INDEX n.chainCode ([0] ++ k)
      (by simp [List.append_assoc]) (by decide) hpfp4 hidx4 hcc (by simp [hk])
    obtain ⟨hlen, hr0, hr4, hr5, hr9, hs13, hs45, hg45, hs46⟩ := hreads
    have hcases := decodeBuffer_cases
      (ser32 Network.CATAPULT.privateKeyPfx ++ [n.__DEPTH] ++
        ser32 n.__PARENT_FINGERPRINT ++ ser32 n.__INDEX ++ n.chainCode ++
        [0] ++ k) Network.CATAPULT
    have hmaster2 := fun hz => hmaster (hr4 ▸ hz)
    have hdecode := (hcases.2.2.2.2 hlen (by
        intro hz
        rw [hr5, hr9]
        exact hmaster2 hz)).1 hr0 (by rw [hg45]; rfl)
    have hfrom : fromBase58 dec
        (enc (ser32 Network.CATAPULT.privateKeyPfx ++ [n.__DEPTH] ++
          ser32 n.__PARENT_FINGERPRINT ++ ser32 n.__INDEX ++ n.chainCode ++
          [0] ++ k)) Network.CATAPULT = .ok
          ⟨some (sliceL (ser32 Network.CATAPULT.privateKeyPfx ++ [n.__DEPTH] ++
              ser32 n.__PARENT_FINGERPRINT ++ ser32 n.__INDEX ++ n.chainCode ++
              [0] ++ k) 46 78), none,
            sliceL (ser32 Network.CATAPULT.privateKeyPfx ++ [n.__DEPTH] ++
              ser32 n.__PARENT_FINGERPRINT ++ ser32 n.__INDEX ++ n.chainCode ++
              [0] ++ k) 13 45, Network.CATAPULT,
            (ser32 Network.CATAPULT.privateKeyPfx ++ [n.__DEPTH] ++
              ser32 n.__PARENT_FINGERPRINT ++ ser32 n.__INDEX ++ n.chainCode ++
              [0] ++ k).getD 4 0,
            readUInt32BE (ser32 Network.CATAPULT.privateKeyPfx ++ [n.__DEPTH] ++
              ser32 n.__PARENT_FINGERPRINT ++ ser32 n.__INDEX ++ n.chainCode ++
              [0] ++ k) 9,
            readUInt32BE (ser32 Network.CATAPULT.privateKeyPfx ++ [n.__DEPTH] ++
              ser32 n.__PARENT_FINGERPRINT ++ ser32 n.__INDEX ++ n.chainCode ++
              [0] ++ k) 5⟩ := by
      rw [fromBase58_eq_decode dec _ Network.CATAPULT _ (hcodec _)]
      exact hdecode
    have hDeq : some (sliceL (ser32 Network.CATAPULT.privateKeyPfx ++ [n.__DEPTH] ++
        ser32 n.__PARENT_FINGERPRINT ++ ser32 n.__INDEX ++ n.chainCode ++
        [0] ++ k) 46 78) = n.__D := by
      rw [hs46, hD]
      rfl
    exact ⟨_, _, hlay, hfrom, hr4, hr9, hr5, hs13, hDeq,
      fun hnone => absurd (hD ▸ hnone) (by simp)⟩
  · have hlay := toBase58_layout_pub C enc alloc n q halloc hD hQ hq hdep hpfp4 hidx4 hcc
    have hreads := layout_reads
      (ser32 Network.CATAPULT.publicKeyPfx ++ [n.__DEPTH] ++
        ser32 n.__PARENT_FINGERPRINT ++ ser32 n.__INDEX ++ n.chainCode ++ q)
      Network.CATAPULT.publicKeyPfx n.__DEPTH n.__PARENT_FINGERPRINT
      n.__INDEX n.chainCode q
      (by simp [List.append_assoc]) (by decide) hpfp4 hidx4 hcc hq
    obtain ⟨hlen, hr0, hr4, hr5, hr9, hs13, hs45, hg45, hs46⟩ := hreads
    have hcases := decodeBuffer_cases
      (ser32 Network.CATAPULT.publicKeyPfx ++ [n.__DEPTH] ++
        ser32 n.__PARENT_FINGERPRINT ++ ser32 n.__INDEX ++ n.chainCode ++ q)
      Network.CATAPULT
    have hmaster2 := fun hz => hmaster (hr4 ▸ hz)
    have hdecode := (hcases.2.2.2.2 hlen (by
        intro hz
        rw [hr5, hr9]
        exact hmaster2 hz)).2 hr0
    have hfrom : fromBase58 dec
        (enc (ser32 Network.CATAPULT.publicKeyPfx ++ [n.__DEPTH] ++
          ser32 n.__PARENT_FINGERPRINT ++ ser32 n.__INDEX ++ n.chainCode ++ q))
        Network.CATAPULT = .ok
          ⟨none, some (sliceL (ser32 Network.CATAPULT.publicKeyPfx ++ [n.__DEPTH] ++
              ser32 n.__PARENT_FINGERPRINT ++ ser32 n.__INDEX ++ n.chainCode ++
              q) 45 78),
            sliceL (ser32 Network.CATAPULT.publicKeyPfx ++ [n.__DEPTH] ++
              ser32 n.__PARENT_FINGERPRINT ++ ser32 n.__INDEX ++ n.chainCode ++
              q) 13 45, Network.CATAPULT,
            (ser32 Network.CATAPULT.publicKeyPfx ++ [n.__DEPTH] ++
              ser32 n.__PARENT_FINGERPRINT ++ ser32 n.__INDEX ++ n.chainCode ++
              q).getD 4 0,
            readUInt32BE (ser32 Network.CATAPULT.publicKeyPfx ++ [n.__DEPTH] ++
              ser32 n.__PARENT_FINGERPRINT ++ ser32 n.__INDEX ++ n.chainCode ++
              q) 9,
            readUInt32BE (ser32 Network.CATAPULT.publicKeyPfx ++ [n.__DEPTH] ++
              ser32 n.__PARENT_FINGERPRINT ++ ser32 n.__INDEX ++ n.chainCode ++
              q) 5⟩ := by
      rw [fromBase58_eq_decode dec _ Network.CATAPULT _ (hcodec _)]
      exact hdecode
    have hQeq : (n.__D = none → some (sliceL (ser32 Network.CATAPULT.publicKeyPfx ++
        [n.__DEPTH] ++ ser32 n.__PARENT_FINGERPRINT ++ ser32 n.__INDEX ++
        n.chainCode ++ q) 45 78) = n.__Q) := by
      intro _
      rw [hs45, hQ]
    exact ⟨_, _, hlay, hfrom, hr4, hr9, hr5, hs13, hD.symm, hQeq⟩

set_option maxRecDepth 4096 in
/-- Claim C2, counterexample.  The claim states the round-trip reproduces
the key material bit-for-bit for every valid node.  For the concrete
neutered node `wPub32`, whose public point is the 32-byte size produced by
`CatapultECC.extractPublicKey`, `toBase58` copies only 32 bytes into the
33-byte key field (byte 77 keeps the `allocUnsafe` buffer's previous
content) and `fromBase58` reads back a 33-byte point: the decoded public
point is not bit-for-bit equal to the original. -/
theorem toBase58_roundtrip_cex :
    ((toBase58 dC idEnc allocZ wPub32).bind
        (fun s => fromBase58 someDec s Network.CATAPULT)).map
        NodeEd25519.__Q ≠ .ok wPub32.__Q ∧
    ((toBase58 dC idEnc allocZ wPub32).bind
        (fun s => fromBase58 someDec s Network.CATAPULT)).map
        NodeEd25519.__Q = .ok (some (List.replicate 32 4 ++ [0])) := by
  refine ⟨?_, by decide⟩
  decide

/-- Claim C2, amended, witness: the round-trip at the concrete private node
`wPriv` (32-byte scalar) with the identity stand-in for base58check. -/
theorem toBase58_fromBase58_roundtrip_witness :
    ∃ s node2, toBase58 dC idEnc allocZ wPriv = .ok s ∧
      fromBase58 someDec s Network.CATAPULT = .ok node2 ∧
      node2.depth = wPriv.depth ∧ node2.index = wPriv.index ∧
      node2.parentFingerprint = wPriv.parentFingerprint ∧
      node2.chainCode = wPriv.chainCode ∧ node2.__D = wPriv.__D ∧
      (wPriv.__D = none → node2.__Q = wPriv.__Q) :=
  toBase58_fromBase58_roundtrip dC idEnc someDec allocZ wPriv
    (fun _ => rfl) (by decide) (by decide) (by decide) (by decide)
    (by decide) (by decide)
    (Or.inl ⟨List.replicate 32 2, rfl, by decide⟩)
